import Mathlib

/-!
# VitaCam web front end: `cmd/web/main.go`

A shallow embedding of the two HTTP handlers of `cmd/web/main.go`
(`generateHandler`, `indexHandler`) and of the start-up code of `main` that
selects the API key.  Effects are made explicit: a handler is a function from
its inputs (the request, the process-wide key, the answers of the external
world) to a `World` recording what was written to the client, what was logged
and which external calls were made.
-/

namespace VitaCam

/-! ## net/http: response writer -/

/-- The `http.ResponseWriter` of one request.  `status` is the status line
already sent to the client (`none` while no header has been written). -/
structure ResponseWriter where
  status : Option Nat
  body : String
  deriving DecidableEq, Repr

/-- A writer on which nothing has been written yet. -/
def ResponseWriter.fresh : ResponseWriter := ⟨none, ""⟩

/-- Go `w.WriteHeader(code)`: sends the status line; a second call is superfluous
and leaves the status already sent. -/
def ResponseWriter.WriteHeader (w : ResponseWriter) (code : Nat) : ResponseWriter :=
  match w.status with
  | some _ => w
  | none => { w with status := some code }

/-- Go `w.Write(data)`: sends the header with status 200 when none was sent yet,
then appends the data to the body. -/
def ResponseWriter.Write (w : ResponseWriter) (data : String) : ResponseWriter :=
  let w1 := w.WriteHeader 200
  { w1 with body := w1.body ++ data }

/-- The status the client receives once the handler has returned: the server
sends 200 when the handler never wrote a header. -/
def ResponseWriter.finalStatus (w : ResponseWriter) : Nat :=
  w.status.getD 200

/-- Go `http.Error(w, error, code)`: `w.WriteHeader(code)` followed by
`fmt.Fprintln(w, error)`. -/
def httpError (w : ResponseWriter) (error : String) (code : Nat) : ResponseWriter :=
  (w.WriteHeader code).Write (error ++ "\n")

def StatusBadRequest : Nat := 400
def StatusMethodNotAllowed : Nat := 405
def StatusInternalServerError : Nat := 500
def MethodPost : String := "POST"

/-! ## genai: parts, responses, the stream iterator -/

/-- A `genai.Part`.  `Text` and `Blob` are the two implementations the handler
builds itself; `other` stands for any further implementation and carries the
text `fmt.Fprint` produces for it. -/
inductive Part where
  | Text (s : String)
  | Blob (MIMEType : String) (Data : List Nat)
  | other (printed : String)
  deriving DecidableEq, Repr

/-- Go `genai.ImageData(format, data)`: a blob of MIME type `image/<format>`. -/
def ImageData (format : String) (data : List Nat) : Part :=
  Part.Blob ("image/" ++ format) data

/-- What `fmt.Fprint(w, part)` writes: a `Text` is a string and is written as
it is, a `Blob` is a struct and is written in the default format
`{MIMEType [b0 b1 ...]}`. -/
def Fprint : Part → String
  | Part.Text s => s
  | Part.Blob m d => "\x7b" ++ m ++ " [" ++ " ".intercalate (d.map toString) ++ "]\x7d"
  | Part.other s => s

structure Content where
  Parts : List Part
  deriving DecidableEq, Repr

structure Candidate where
  Content : Option Content
  deriving DecidableEq, Repr

structure GenerateContentResponse where
  Candidates : List Candidate
  deriving DecidableEq, Repr

/-- One answer of `iter.Next()`: a response (possibly nil) with a nil error,
`iterator.Done`, or another error. -/
inductive IterResult where
  | resp (r : Option GenerateContentResponse)
  | done
  | err (e : String)
  deriving DecidableEq, Repr

/-! ## net/http: request and multipart form -/

/-- A file part of the request body: the content type it declares and its
bytes.  `openErr` and `readErr` are the faults of the environment: opening
the stored part fails, reading it fails. -/
structure Upload where
  contentType : String
  bytes : List Nat
  openErr : Option String
  readErr : Option String
  deriving DecidableEq, Repr

/-- A `multipart.FileHeader` after parsing: the part and where it is kept. -/
structure FileHeader where
  part : Upload
  onDisk : Bool
  deriving DecidableEq, Repr

/-- The request body as sent: either something `ParseMultipartForm` cannot
read as a form (with its error), or the fields of a multipart form: `Value`
its text fields and `File` its file parts, each in the order sent. -/
inductive Body where
  | invalid (err : String)
  | multipart (Value : List (String × String)) (File : List (String × Upload))
  deriving DecidableEq, Repr

/-- The request.  `Query` holds the parameters of the URL query
(`r.URL.RawQuery`) in order; `queryErr` is the error of `url.ParseQuery` when
the query is malformed. -/
structure Request where
  Method : String
  Path : String
  Query : List (String × String)
  queryErr : Option String
  body : Body
  deriving DecidableEq, Repr

/-- The request after parsing: `Value` is `r.Form`, the parameters of the URL
query followed by the text fields of the multipart form; `File` is
`r.MultipartForm.File`. -/
structure Form where
  Value : List (String × String)
  File : List (String × FileHeader)
  deriving DecidableEq, Repr

/-- File parts are kept in memory while they fit in what is left of
`maxMemory`; a part that does not fit is stored on disk in a temporary
file.  No part is refused for its size. -/
def storeFiles : Nat → List (String × Upload) → List (String × FileHeader)
  | _, [] => []
  | maxMemory, (k, u) :: rest =>
    if u.bytes.length > maxMemory then
      (k, ⟨u, true⟩) :: storeFiles maxMemory rest
    else
      (k, ⟨u, false⟩) :: storeFiles (maxMemory - u.bytes.length) rest

/-- Go `r.ParseMultipartForm(maxMemory)`: fails on a body that is not a
readable form, and (with the error of `r.ParseForm`) on a malformed URL
query; otherwise `r.Form` holds the query parameters, then the text fields
of the body appended to them, and the file parts are stored by
`storeFiles`. -/
def ParseMultipartForm (r : Request) (maxMemory : Nat) : Except String Form :=
  match r.body with
  | Body.invalid e => Except.error e
  | Body.multipart v f =>
    match r.queryErr with
    | some e => Except.error e
    | none => Except.ok ⟨r.Query ++ v, storeFiles maxMemory f⟩

/-- Go `r.FormFile(key)` on a parsed form: opens the first file of the key;
`http: no such file` when there is none. -/
def FormFile (form : Form) (key : String) : Except String FileHeader :=
  match form.File.find? (fun kv => kv.1 == key) with
  | none => Except.error "http: no such file"
  | some (_, fh) =>
    match fh.part.openErr with
    | some e => Except.error e
    | none => Except.ok fh

/-- Go `io.ReadAll(file)`: the whole contents, in memory or on disk alike. -/
def ReadAll (file : FileHeader) : Except String (List Nat) :=
  match file.part.readErr with
  | some e => Except.error e
  | none => Except.ok file.part.bytes

/-- Go `r.FormValue(key)` on a parsed form: the first value of the key in
`r.Form` (a parameter of the URL query before a field of the body), the
empty string when there is none. -/
def FormValue (form : Form) (key : String) : String :=
  match form.Value.find? (fun kv => kv.1 == key) with
  | none => ""
  | some (_, v) => v

/-! ## the handlers -/

structure Page where
  Images : List String
  deriving DecidableEq, Repr

/-- Everything a handler does that can be observed from outside. -/
structure World where
  w : ResponseWriter
  log : List String
  parsed : Bool
  calls : List (List Part)
  executed : List Page
  deriving DecidableEq, Repr

/-- The state in which a handler is entered. -/
def World.init : World := ⟨ResponseWriter.fresh, [], false, [], []⟩

/-- The initial value of the package variable `apiKey`. -/
def apiKey : String := "add_API_Key"

/-- The part of `main` that sets `apiKey`: `getenv` is the value of
`os.Getenv("API_KEY")`, empty when the variable is unset. -/
def main_apiKey (getenv : String) : String :=
  if getenv ≠ "" then getenv else apiKey

/-- The innermost loop: `fmt.Fprint(w, part)` for each part. -/
def writeParts (w : ResponseWriter) : List Part → ResponseWriter
  | [] => w
  | part :: rest => writeParts (w.Write (Fprint part)) rest

/-- The loop over `resp.Candidates`. -/
def writeCandidates (w : ResponseWriter) : List Candidate → ResponseWriter
  | [] => w
  | cand :: rest =>
    match cand.Content with
    | some content => writeCandidates (writeParts w content.Parts) rest
    | none => writeCandidates w rest

/-- The `for` loop over `iter.Next()`.  The iterator is the list of the
answers it has left; an exhausted iterator answers `iterator.Done`. -/
def streamLoop (st : World) : List IterResult → World
  | [] => st
  | IterResult.done :: _ => st
  | IterResult.err e :: _ =>
    { st with
      log := st.log ++ ["Error generating content: " ++ e ++ "\n"]
      w := httpError st.w "Error: unable to generate content" StatusInternalServerError }
  | IterResult.resp none :: rest => streamLoop st rest
  | IterResult.resp (some resp) :: rest =>
    streamLoop { st with w := writeCandidates st.w resp.Candidates } rest

/-- Go `generateHandler(w, r, model)`, with the package variable `apiKey` as
the first argument and `model.GenerateContentStream` as the last. -/
def generateHandler (apiKey : String) (w : ResponseWriter) (r : Request)
    (GenerateContentStream : List Part → List IterResult) : World :=
  let st : World := { World.init with w := w }
  if r.Method ≠ MethodPost then
    { st with w := httpError w "Invalid request method" StatusMethodNotAllowed }
  else if apiKey = "TODO" then
    { st with w := httpError w "Error: To get started, get an API key at https://makersuite.google.com/app/apikey and enter it in cmd/web/main.go and then hard restart the preview" StatusInternalServerError }
  else
    match ParseMultipartForm r (10 <<< 20) with
    | Except.error err =>
      { st with
        parsed := true
        log := ["Error parsing multipart form: " ++ err ++ "\n"]
        w := httpError w "Error: unable to parse form" StatusBadRequest }
    | Except.ok form =>
      match FormFile form "file" with
      | Except.error err =>
        { st with
          parsed := true
          log := ["Error retrieving file: " ++ err ++ "\n"]
          w := httpError w "Error: unable to retrieve file" StatusBadRequest }
      | Except.ok file =>
        match ReadAll file with
        | Except.error err =>
          { st with
            parsed := true
            log := ["Unable to read file: " ++ err ++ "\n"]
            w := httpError w "Error: unable to read file" StatusInternalServerError }
        | Except.ok contents =>
          let prompt := FormValue form "prompt"
          if prompt = "" then
            { st with
              parsed := true
              w := httpError w "Error: prompt cannot be empty" StatusBadRequest }
          else
            let args := [Part.Text prompt, ImageData "jpeg" contents]
            streamLoop { st with parsed := true, calls := [args] } (GenerateContentStream args)

/-- Go `filepath.Base(path)` on a system whose separator is `/`. -/
def Base (path : String) : String :=
  if path = "" then "."
  else
    let stripped := (path.data.reverse.dropWhile (fun c => c = '/')).reverse
    let last := (stripped.reverse.takeWhile (fun c => c ≠ '/')).reverse
    if last = [] then "/" else String.mk last

/-- The variable `matches` after `filepath.Glob`: the matches found, none
when the scan failed. -/
def matchesOf (glob : Except String (List String)) : List String :=
  match glob with
  | Except.ok ms => ms
  | Except.error _ => []

/-- Go `indexHandler(w, r)`.  `glob` is the answer of `filepath.Glob` (the
matches, or the error with no match); `tmpl` is the parsed template
`static/index.html`: executed on a page it gives the text it writes and the
error it returns, if any. -/
def indexHandler (tmpl : Page → String × Option String) (glob : Except String (List String))
    (w : ResponseWriter) (r : Request) : World :=
  let st : World := { World.init with w := w }
  let found : List String := matchesOf glob
  let log1 : List String :=
    match glob with
    | Except.ok _ => []
    | Except.error err => ["Error loading baked goods images: " ++ err]
  let page : Page := ⟨found.map Base⟩
  if r.Path = "/" then
    let res := tmpl page
    { st with
      w := w.Write res.1
      executed := [page]
      log := log1 ++ (match res.2 with
        | some e => ["Template execution error: " ++ e]
        | none => []) }
  else
    { st with log := log1 }

/-! ## reading the claims: concatenations -/

/-- Concatenation of a list of strings, in order. -/
def concat : List String → String
  | [] => ""
  | s :: rest => s ++ concat rest

/-- The parts of a response in the order the handler visits them: candidate
order, then part order; a candidate without content has none. -/
def partsOf (resp : GenerateContentResponse) : List Part :=
  resp.Candidates.flatMap (fun cand =>
    match cand.Content with
    | some content => content.Parts
    | none => [])

/-- The text of a part as the specification reads it: a text part is its
text, any other part is no text. -/
def textOf : Part → String
  | Part.Text s => s
  | _ => ""

/-- Whether a part is a text part. -/
def Part.isText : Part → Bool
  | Part.Text _ => true
  | _ => false

/-- Body described by the specification: the text parts of all chunks,
concatenated in arrival order. -/
def specBody (chunks : List GenerateContentResponse) : String :=
  concat ((chunks.flatMap partsOf).map textOf)

/-- What the handler prints for a sequence of chunks: every part, as
`fmt.Fprint` writes it. -/
def printedBody (chunks : List GenerateContentResponse) : String :=
  concat ((chunks.flatMap partsOf).map Fprint)

/-- The stream that yields the given chunks one after the other. -/
def yield (chunks : List GenerateContentResponse) : List IterResult :=
  chunks.map (fun c => IterResult.resp (some c))

/-- A candidate that carries nothing to write: no content, or a content
without parts. -/
def Candidate.absent (cand : Candidate) : Prop :=
  cand.Content = none ∨ cand.Content = some ⟨[]⟩

/-- An answer of the iterator that carries nothing to write: a nil response,
or a response all of whose candidates (if any) are absent. -/
def IterResult.absent : IterResult → Prop
  | IterResult.resp none => True
  | IterResult.resp (some r) => ∀ cand ∈ r.Candidates, cand.absent
  | _ => False

instance (cand : Candidate) : Decidable cand.absent := by
  unfold Candidate.absent; infer_instance

instance (x : IterResult) : Decidable x.absent := by
  cases x with
  | resp r => cases r <;> (unfold IterResult.absent; infer_instance)
  | done => unfold IterResult.absent; infer_instance
  | err e => unfold IterResult.absent; infer_instance

/-- A valid POST request: the key passes the guard, the URL query is well
formed and the body parses as a multipart form, `u` is its first `file` part
and can be opened and read, `prompt` is the value `r.FormValue("prompt")`
finds (the first `prompt` among the query parameters followed by the text
fields of the body) and is not empty. -/
def ValidPost (key : String) (r : Request) (prompt : String) (u : Upload) : Prop :=
  r.Method = MethodPost ∧ key ≠ "TODO" ∧ r.queryErr = none ∧
    ∃ v f k kp, r.body = Body.multipart v f
      ∧ f.find? (fun kv => kv.1 == "file") = some (k, u)
      ∧ u.openErr = none ∧ u.readErr = none
      ∧ (r.Query ++ v).find? (fun kv => kv.1 == "prompt") = some (kp, prompt)
      ∧ prompt ≠ ""

/-! ## sample inputs -/

/-- A three-byte upload declared as PNG. -/
def sampleUpload : Upload := ⟨"image/png", [1, 2, 3], none, none⟩

/-- A well-formed upload request: prompt `describe`, file `sampleUpload`. -/
def sampleRequest : Request :=
  ⟨"POST", "/api/generate", [], none, Body.multipart [("prompt", "describe")] [("file", sampleUpload)]⟩

/-- A chunk with one candidate holding one text part. -/
def textChunk (s : String) : GenerateContentResponse := ⟨[⟨some ⟨[Part.Text s]⟩⟩]⟩

/-- A chunk with one candidate holding one image part. -/
def blobChunk : GenerateContentResponse := ⟨[⟨some ⟨[Part.Blob "image/png" [1, 2]]⟩⟩]⟩

/-- An upload of one byte more than 10 MB. -/
def bigUpload : Upload := ⟨"image/jpeg", List.replicate (10 <<< 20 + 1) 0, none, none⟩

/-- A well-formed upload request carrying `bigUpload`. -/
def bigRequest : Request :=
  ⟨"POST", "/api/generate", [], none, Body.multipart [("prompt", "describe")] [("file", bigUpload)]⟩

/-- A POST request whose form has a prompt and no file. -/
def noFileRequest : Request :=
  ⟨"POST", "/api/generate", [], none, Body.multipart [("prompt", "describe")] []⟩

/-- A POST request whose form has a file and no prompt. -/
def noPromptRequest : Request :=
  ⟨"POST", "/api/generate", [], none, Body.multipart [] [("file", sampleUpload)]⟩

/-- A POST request whose form has a file and an empty prompt. -/
def emptyPromptRequest : Request :=
  ⟨"POST", "/api/generate", [], none, Body.multipart [("prompt", "")] [("file", sampleUpload)]⟩

/-- A POST request with `prompt=fromquery` in the URL query and a form that
has a file and no prompt field. -/
def queryPromptRequest : Request :=
  ⟨"POST", "/api/generate", [("prompt", "fromquery")], none,
    Body.multipart [] [("file", sampleUpload)]⟩

/-- A POST request with `prompt=fromquery` in the URL query and a form that
has a file and the prompt field `frombody`. -/
def bothPromptRequest : Request :=
  ⟨"POST", "/api/generate", [("prompt", "fromquery")], none,
    Body.multipart [("prompt", "frombody")] [("file", sampleUpload)]⟩

/-- A POST request with an empty `prompt=` in the URL query and a form that
has a file and the prompt field `frombody`. -/
def emptyQueryPromptRequest : Request :=
  ⟨"POST", "/api/generate", [("prompt", "")], none,
    Body.multipart [("prompt", "frombody")] [("file", sampleUpload)]⟩

/-- A template that writes the image names one after the other. -/
def sampleTemplate (page : Page) : String × Option String :=
  ("<ul>" ++ concat page.Images ++ "</ul>", none)

/-! ## lemmas on the writer and the loops -/

theorem concat_append (a b : List String) : concat (a ++ b) = concat a ++ concat b := by
  induction a with
  | nil => simp [concat]
  | cons s rest ih => simp [concat, ih, String.append_assoc]

theorem Write_body (w : ResponseWriter) (s : String) : (w.Write s).body = w.body ++ s := by
  unfold ResponseWriter.Write ResponseWriter.WriteHeader
  cases w.status <;> rfl

theorem Write_status (w : ResponseWriter) (s : String) :
    (w.Write s).status = some (w.status.getD 200) := by
  unfold ResponseWriter.Write ResponseWriter.WriteHeader
  cases h : w.status <;> simp [h]

theorem writeParts_body (w : ResponseWriter) (ps : List Part) :
    (writeParts w ps).body = w.body ++ concat (ps.map Fprint) := by
  induction ps generalizing w with
  | nil => simp [writeParts, concat]
  | cons p rest ih => simp [writeParts, concat, ih, Write_body, String.append_assoc]

theorem writeParts_status (w : ResponseWriter) (ps : List Part) (h : ps ≠ []) :
    (writeParts w ps).status = some (w.status.getD 200) := by
  induction ps generalizing w with
  | nil => exact absurd rfl h
  | cons p rest ih =>
    cases rest with
    | nil => simp [writeParts, Write_status]
    | cons q rest2 =>
      have := ih (w.Write (Fprint p)) (by simp)
      simp only [writeParts] at this ⊢
      rw [this, Write_status]; rfl

theorem writeCandidates_append (w : ResponseWriter) (a b : List Candidate) :
    writeCandidates w (a ++ b) = writeCandidates (writeCandidates w a) b := by
  induction a generalizing w with
  | nil => rfl
  | cons c rest ih =>
    cases hc : c.Content with
    | none => simp [writeCandidates, hc, ih]
    | some content => simp [writeCandidates, hc, ih]

theorem writeCandidates_body (w : ResponseWriter) (resp : GenerateContentResponse) :
    (writeCandidates w resp.Candidates).body = w.body ++ concat ((partsOf resp).map Fprint) := by
  obtain ⟨cs⟩ := resp
  simp only [partsOf]
  induction cs generalizing w with
  | nil => simp [writeCandidates, concat]
  | cons c rest ih =>
    cases hc : c.Content with
    | none => simp [writeCandidates, hc, ih]
    | some content =>
      simp [writeCandidates, hc, ih, writeParts_body, concat_append, String.append_assoc]

theorem writeCandidates_status (w : ResponseWriter) (resp : GenerateContentResponse)
    (h : partsOf resp ≠ []) :
    (writeCandidates w resp.Candidates).status = some (w.status.getD 200) := by
  obtain ⟨cs⟩ := resp
  simp only [partsOf] at h
  simp only
  induction cs generalizing w with
  | nil => simp at h
  | cons c rest ih =>
    cases hc : c.Content with
    | none =>
      simp only [writeCandidates, hc]
      apply ih
      simpa [hc] using h
    | some content =>
      simp only [writeCandidates, hc]
      by_cases hp : content.Parts = []
      · rw [hp]
        simp only [writeParts]
        apply ih
        simpa [hc, hp] using h
      · by_cases hr : (rest.flatMap (fun cand =>
            match cand.Content with
            | some content => content.Parts
            | none => [])) = []
        · have hrest : ∀ v : ResponseWriter, writeCandidates v rest = v := by
            intro v
            clear ih h
            induction rest generalizing v with
            | nil => rfl
            | cons d rest2 ih2 =>
              simp only [List.flatMap_cons, List.append_eq_nil] at hr
              cases hd : d.Content with
              | none => simp only [writeCandidates, hd]; exact ih2 hr.2 v
              | some dc =>
                have : dc.Parts = [] := by simpa [hd] using hr.1
                simp only [writeCandidates, hd, this, writeParts]
                exact ih2 hr.2 v
          rw [hrest]
          exact writeParts_status w _ hp
        · rw [ih _ hr, writeParts_status w _ hp]
          rfl

theorem writeCandidates_absent (w : ResponseWriter) (cs : List Candidate)
    (h : ∀ cand ∈ cs, cand.absent) : writeCandidates w cs = w := by
  induction cs with
  | nil => rfl
  | cons c rest ih =>
    have hc := h c (by simp)
    have hrest := ih (fun d hd => h d (by simp [hd]))
    rcases hc with hc | hc
    · simp [writeCandidates, hc, hrest]
    · simp [writeCandidates, hc, writeParts, hrest]

theorem streamLoop_calls (st : World) (s : List IterResult) :
    (streamLoop st s).calls = st.calls ∧ (streamLoop st s).parsed = st.parsed
      ∧ (streamLoop st s).executed = st.executed := by
  induction s generalizing st with
  | nil => simp [streamLoop]
  | cons x rest ih =>
    cases x with
    | done => simp [streamLoop]
    | err e => simp [streamLoop]
    | resp r =>
      cases r with
      | none => simpa [streamLoop] using ih st
      | some c => simpa [streamLoop] using ih _

theorem absent_of_partsOf_nil (c : GenerateContentResponse) (hc : partsOf c = []) :
    ∀ cand ∈ c.Candidates, cand.absent := by
  intro cand hmem
  simp only [partsOf, List.flatMap_eq_nil_iff] at hc
  have h := hc cand hmem
  cases hcc : cand.Content with
  | none => exact Or.inl hcc
  | some content =>
    obtain ⟨ps⟩ := content
    rw [hcc] at h
    simp only at h
    exact Or.inr (by rw [hcc, h])

theorem streamLoop_yield (st : World) (chunks : List GenerateContentResponse)
    (rest : List IterResult) :
    ∃ w, streamLoop st (yield chunks ++ rest) = streamLoop { st with w := w } rest
      ∧ w.body = st.w.body ++ printedBody chunks
      ∧ (chunks.flatMap partsOf ≠ [] → w.status = some (st.w.status.getD 200))
      ∧ (chunks.flatMap partsOf = [] → w = st.w) := by
  induction chunks generalizing st with
  | nil =>
    refine ⟨st.w, ?_, ?_, ?_, ?_⟩
    · rfl
    · simp [printedBody, concat]
    · intro h; exact absurd rfl h
    · intro _; rfl
  | cons c cs ih =>
    obtain ⟨w, h1, h2, h3, h4⟩ := ih { st with w := writeCandidates st.w c.Candidates }
    refine ⟨w, ?_, ?_, ?_, ?_⟩
    · simpa [yield, streamLoop] using h1
    · rw [h2]
      simp [printedBody, writeCandidates_body, concat_append, String.append_assoc]
    · intro hne
      by_cases hcs : cs.flatMap partsOf = []
      · have hc : partsOf c ≠ [] := by
          intro hc; apply hne; simp [hc, hcs]
        have := h4 hcs
        simp only at this
        rw [this]
        exact writeCandidates_status _ _ hc
      · rw [h3 hcs]
        by_cases hc : partsOf c = []
        · have hw : writeCandidates st.w c.Candidates = st.w :=
            writeCandidates_absent _ _ (absent_of_partsOf_nil c hc)
          simp only [hw]
        · simp only [writeCandidates_status _ _ hc]
          rfl
    · intro hnil
      simp only [List.flatMap_cons, List.append_eq_nil] at hnil
      rw [h4 hnil.2]
      exact writeCandidates_absent _ _ (absent_of_partsOf_nil c hnil.1)

theorem streamLoop_insert_absent (st : World) (pre post : List IterResult) (x : IterResult)
    (hx : x.absent) : streamLoop st (pre ++ x :: post) = streamLoop st (pre ++ post) := by
  induction pre generalizing st with
  | nil =>
    cases x with
    | done => exact absurd hx (by simp [IterResult.absent])
    | err e => exact absurd hx (by simp [IterResult.absent])
    | resp r =>
      cases r with
      | none => rfl
      | some c =>
        have hw : writeCandidates st.w c.Candidates = st.w :=
          writeCandidates_absent _ _ hx
        simp [streamLoop, hw]
  | cons y rest ih =>
    cases y with
    | done => rfl
    | err e => rfl
    | resp r =>
      cases r with
      | none => simpa [streamLoop] using ih st
      | some c => simpa [streamLoop] using ih _

theorem writeCandidates_insert_absent (w : ResponseWriter) (a b : List Candidate)
    (cand : Candidate) (h : cand.absent) :
    writeCandidates w (a ++ cand :: b) = writeCandidates w (a ++ b) := by
  rw [writeCandidates_append, writeCandidates_append]
  have : writeCandidates (writeCandidates w a) [cand] = writeCandidates w a :=
    writeCandidates_absent _ _ (by simpa using h)
  rcases h with h | h
  · simp [writeCandidates, h]
  · simp [writeCandidates, h, writeParts]

theorem streamLoop_insert_candidate (st : World) (pre post : List IterResult)
    (a b : List Candidate) (cand : Candidate) (h : cand.absent) :
    streamLoop st (pre ++ IterResult.resp (some ⟨a ++ cand :: b⟩) :: post)
      = streamLoop st (pre ++ IterResult.resp (some ⟨a ++ b⟩) :: post) := by
  induction pre generalizing st with
  | nil => simp [streamLoop, writeCandidates_insert_absent _ _ _ _ h]
  | cons y rest ih =>
    cases y with
    | done => rfl
    | err e => rfl
    | resp r =>
      cases r with
      | none => simpa [streamLoop] using ih st
      | some c => simpa [streamLoop] using ih _

theorem find_storeFiles_none (m : Nat) (f : List (String × Upload)) (key : String)
    (h : f.find? (fun kv => kv.1 == key) = none) :
    (storeFiles m f).find? (fun kv => kv.1 == key) = none := by
  induction f generalizing m with
  | nil => rfl
  | cons x rest ih =>
    obtain ⟨k, u⟩ := x
    simp only [List.find?_cons] at h
    cases hk : (k == key) with
    | true => simp [hk] at h
    | false =>
      simp only [hk] at h
      unfold storeFiles
      split <;> simp [List.find?_cons, hk, ih _ h]

theorem find_storeFiles_some (m : Nat) (f : List (String × Upload)) (key k : String)
    (u : Upload) (h : f.find? (fun kv => kv.1 == key) = some (k, u)) :
    ∃ b, (storeFiles m f).find? (fun kv => kv.1 == key) = some (k, ⟨u, b⟩) := by
  induction f generalizing m with
  | nil => simp at h
  | cons x rest ih =>
    obtain ⟨k1, u1⟩ := x
    simp only [List.find?_cons] at h
    cases hk : (k1 == key) with
    | true =>
      simp only [hk, Option.some.injEq, Prod.mk.injEq] at h
      obtain ⟨rfl, rfl⟩ := h
      unfold storeFiles
      split
      · exact ⟨true, by simp [List.find?_cons, hk]⟩
      · exact ⟨false, by simp [List.find?_cons, hk]⟩
    | false =>
      simp only [hk] at h
      unfold storeFiles
      split
      · obtain ⟨b, hb⟩ := ih m h
        exact ⟨b, by simp [List.find?_cons, hk, hb]⟩
      · obtain ⟨b, hb⟩ := ih (m - u1.bytes.length) h
        exact ⟨b, by simp [List.find?_cons, hk, hb]⟩

theorem generateHandler_valid (key : String) (w : ResponseWriter) (r : Request)
    (svc : List Part → List IterResult) (prompt : String) (u : Upload)
    (h : ValidPost key r prompt u) :
    generateHandler key w r svc =
      streamLoop { World.init with
          w := w, parsed := true, calls := [[Part.Text prompt, ImageData "jpeg" u.bytes]] }
        (svc [Part.Text prompt, ImageData "jpeg" u.bytes]) := by
  obtain ⟨hm, hk, hq, v, f, k, kp, hb, hf, ho, hr, hp, hne⟩ := h
  obtain ⟨b, hfs⟩ := find_storeFiles_some (10 <<< 20) f "file" k u hf
  have hparse : ParseMultipartForm r (10 <<< 20)
      = Except.ok ⟨r.Query ++ v, storeFiles (10 <<< 20) f⟩ := by
    simp only [ParseMultipartForm, hb, hq]
  have hfile : FormFile ⟨r.Query ++ v, storeFiles (10 <<< 20) f⟩ "file" = Except.ok ⟨u, b⟩ := by
    simp only [FormFile, hfs, ho]
  have hread : ReadAll ⟨u, b⟩ = Except.ok u.bytes := by
    simp only [ReadAll, hr]
  have hval : FormValue ⟨r.Query ++ v, storeFiles (10 <<< 20) f⟩ "prompt" = prompt := by
    simp only [FormValue, hp]
  unfold generateHandler
  simp only [hm, ne_eq, not_true_eq_false, if_false, hk, hparse, hfile, hread, hval, hne]

theorem httpError_fresh (msg : String) (code : Nat) :
    httpError ResponseWriter.fresh msg code = ⟨some code, msg ++ "\n"⟩ := by
  simp [httpError, ResponseWriter.fresh, ResponseWriter.WriteHeader, ResponseWriter.Write]

theorem generateHandler_congr (key : String) (w : ResponseWriter) (r : Request)
    (svc1 svc2 : List Part → List IterResult)
    (h : ∀ st args, streamLoop st (svc1 args) = streamLoop st (svc2 args)) :
    generateHandler key w r svc1 = generateHandler key w r svc2 := by
  unfold generateHandler
  simp only [h]

theorem printed_eq_text (ps : List Part) (h : ∀ p ∈ ps, p.isText = true) :
    ps.map Fprint = ps.map textOf := by
  apply List.map_congr_left
  intro p hp
  have := h p hp
  cases p with
  | Text s => rfl
  | Blob m d => simp [Part.isText] at this
  | other s => simp [Part.isText] at this

/-! ## the claims -/

/-- C1: a request to `generateHandler` whose method is not POST is answered
with status 405 and the line `Invalid request method`, whatever the body, the
key and the service; the form is not parsed and the generation service is
not called. -/
theorem generateHandler_method_not_allowed (key : String) (r : Request)
    (svc : List Part → List IterResult) (h : r.Method ≠ "POST") :
    (generateHandler key ResponseWriter.fresh r svc).w.finalStatus = 405
      ∧ (generateHandler key ResponseWriter.fresh r svc).w.body = "Invalid request method\n"
      ∧ (generateHandler key ResponseWriter.fresh r svc).parsed = false
      ∧ (generateHandler key ResponseWriter.fresh r svc).calls = [] := by
  have hm : r.Method ≠ MethodPost := h
  have : generateHandler key ResponseWriter.fresh r svc
      = { World.init with w := ⟨some 405, "Invalid request method\n"⟩ } := by
    unfold generateHandler
    simp only [hm, ne_eq, not_false_eq_true, if_true, httpError_fresh, StatusMethodNotAllowed]
    rfl
  rw [this]
  exact ⟨rfl, rfl, rfl, rfl⟩

theorem generateHandler_method_not_allowed_witness :
    (generateHandler "TODO" ResponseWriter.fresh
        { sampleRequest with Method := "GET" } (fun _ => [IterResult.done])).w.finalStatus = 405
      ∧ (generateHandler "key" ResponseWriter.fresh
        { sampleRequest with Method := "" } (fun _ => [IterResult.done])).calls = [] :=
  ⟨(generateHandler_method_not_allowed "TODO" { sampleRequest with Method := "GET" }
      (fun _ => [IterResult.done]) (by decide)).1,
   (generateHandler_method_not_allowed "key" { sampleRequest with Method := "" }
      (fun _ => [IterResult.done]) (by decide)).2.2.2⟩

theorem sampleRequest_valid (key : String) (hk : key ≠ "TODO") :
    ValidPost key sampleRequest "describe" sampleUpload :=
  ⟨rfl, hk, rfl, _, _, _, _, rfl, rfl, rfl, rfl, rfl, by decide⟩

/-- C2, as the code has it: for a valid POST request and a stream that
yields the chunks and then `done`, the body is the concatenation, in arrival
order (chunk, candidate, part), of what `fmt.Fprint` writes for every part
of every candidate's content, text or not, with nothing else; when every
part is a text part this is the concatenation of the texts. -/
theorem generateHandler_body_all_parts (key : String) (r : Request)
    (svc : List Part → List IterResult) (prompt : String) (u : Upload)
    (chunks : List GenerateContentResponse) (rest : List IterResult)
    (hv : ValidPost key r prompt u)
    (hs : svc [Part.Text prompt, ImageData "jpeg" u.bytes]
      = yield chunks ++ IterResult.done :: rest) :
    (generateHandler key ResponseWriter.fresh r svc).w.body = printedBody chunks
      ∧ ((∀ p ∈ chunks.flatMap partsOf, p.isText = true) →
        (generateHandler key ResponseWriter.fresh r svc).w.body = specBody chunks) := by
  have hb : (generateHandler key ResponseWriter.fresh r svc).w.body = printedBody chunks := by
    rw [generateHandler_valid key _ r svc prompt u hv, hs]
    obtain ⟨w, h1, h2, _, _⟩ := streamLoop_yield
      { World.init with
          w := ResponseWriter.fresh, parsed := true
          calls := [[Part.Text prompt, ImageData "jpeg" u.bytes]] }
      chunks (IterResult.done :: rest)
    rw [h1]
    simp only [streamLoop, h2]
    simp [ResponseWriter.fresh]
  refine ⟨hb, fun hall => ?_⟩
  rw [hb, printedBody, specBody, printed_eq_text _ hall]

theorem generateHandler_body_all_parts_witness :
    (generateHandler "key" ResponseWriter.fresh sampleRequest
      (fun _ => yield [textChunk "Hello", textChunk " ", textChunk "world"]
        ++ IterResult.done :: [])).w.body = "Hello world" :=
  (generateHandler_body_all_parts "key" sampleRequest
    (fun _ => yield [textChunk "Hello", textChunk " ", textChunk "world"]
      ++ IterResult.done :: [])
    "describe" sampleUpload [textChunk "Hello", textChunk " ", textChunk "world"] []
    (sampleRequest_valid "key" (by decide)) rfl).1.trans (by decide)

/-- C2 as stated fails: a chunk whose only part is an image makes the handler
write the printed form of the image, while the chunk has no text part. -/
theorem generateHandler_body_not_text_only :
    ValidPost "key" sampleRequest "describe" sampleUpload
      ∧ (generateHandler "key" ResponseWriter.fresh sampleRequest
          (fun _ => yield [blobChunk] ++ IterResult.done :: [])).w.body
        = "\x7bimage/png [1 2]\x7d"
      ∧ specBody [blobChunk] = ""
      ∧ (generateHandler "key" ResponseWriter.fresh sampleRequest
          (fun _ => yield [blobChunk] ++ IterResult.done :: [])).w.body
        ≠ specBody [blobChunk] :=
  ⟨⟨rfl, by decide, rfl, _, _, _, _, rfl, rfl, rfl, rfl, rfl, by decide⟩,
    by decide, by decide, by decide⟩

/-- C3, as the code has it: for a valid POST request whose stream yields one
chunk of text parts (at least one) and then a genuine error, the body is that
chunk's text followed by the line `Error: unable to generate content`, no
later answer of the stream is written, and the status is the 200 sent with
the chunk. -/
theorem generateHandler_error_after_chunk (key : String) (r : Request)
    (svc : List Part → List IterResult) (prompt : String) (u : Upload)
    (c : GenerateContentResponse) (e : String) (rest : List IterResult)
    (hv : ValidPost key r prompt u)
    (hs : svc [Part.Text prompt, ImageData "jpeg" u.bytes]
      = IterResult.resp (some c) :: IterResult.err e :: rest)
    (htext : ∀ p ∈ partsOf c, p.isText = true) (hne : partsOf c ≠ []) :
    (generateHandler key ResponseWriter.fresh r svc).w.body
        = specBody [c] ++ "Error: unable to generate content\n"
      ∧ (generateHandler key ResponseWriter.fresh r svc).w.finalStatus = 200 := by
  rw [generateHandler_valid key _ r svc prompt u hv, hs]
  simp only [streamLoop, httpError]
  have hst := writeCandidates_status ResponseWriter.fresh c hne
  have hbd := writeCandidates_body ResponseWriter.fresh c
  constructor
  · rw [Write_body]
    have : ((writeCandidates ResponseWriter.fresh c.Candidates).WriteHeader
        StatusInternalServerError).body = (writeCandidates ResponseWriter.fresh c.Candidates).body := by
      unfold ResponseWriter.WriteHeader
      cases (writeCandidates ResponseWriter.fresh c.Candidates).status <;> rfl
    simp only [World.init, this, hbd]
    simp [ResponseWriter.fresh, specBody, printed_eq_text _ htext]
  · unfold ResponseWriter.finalStatus
    rw [Write_status]
    unfold ResponseWriter.WriteHeader
    rw [hst]
    simp only [Option.getD_some, hst]
    rfl

theorem generateHandler_error_after_chunk_witness :
    (generateHandler "key" ResponseWriter.fresh sampleRequest
        (fun _ => [IterResult.resp (some (textChunk "Hello")), IterResult.err "boom",
          IterResult.resp (some (textChunk "world"))])).w.body
      = "HelloError: unable to generate content\n" :=
  (generateHandler_error_after_chunk "key" sampleRequest
    (fun _ => [IterResult.resp (some (textChunk "Hello")), IterResult.err "boom",
      IterResult.resp (some (textChunk "world"))])
    "describe" sampleUpload (textChunk "Hello") "boom"
    [IterResult.resp (some (textChunk "world"))]
    (sampleRequest_valid "key" (by decide)) rfl (by decide) (by decide)).1.trans (by decide)

/-- C3 as stated fails: after the chunk `Hello` and an error the body is not
`Hello` alone (the error line follows it) and the status is 200, not 500. -/
theorem generateHandler_error_after_chunk_not_clean :
    ValidPost "key" sampleRequest "describe" sampleUpload
      ∧ (generateHandler "key" ResponseWriter.fresh sampleRequest
          (fun _ => [IterResult.resp (some (textChunk "Hello")), IterResult.err "boom"])).w.body
        ≠ "Hello"
      ∧ (generateHandler "key" ResponseWriter.fresh sampleRequest
          (fun _ => [IterResult.resp (some (textChunk "Hello")), IterResult.err "boom"])).w.finalStatus
        ≠ 500 :=
  ⟨⟨rfl, by decide, rfl, _, _, _, _, rfl, rfl, rfl, rfl, rfl, by decide⟩, by decide, by decide⟩

/-- C4, the code at the failing input: with `API_KEY` unset the key is the
placeholder `add_API_Key`, which the guard (a comparison with `TODO`) lets
through: the form is parsed, the service is called and the answer is 200. -/
theorem generateHandler_placeholder_not_rejected :
    main_apiKey "" = "add_API_Key"
      ∧ (generateHandler (main_apiKey "") ResponseWriter.fresh sampleRequest
          (fun _ => [IterResult.resp (some (textChunk "ok")), IterResult.done])).parsed = true
      ∧ (generateHandler (main_apiKey "") ResponseWriter.fresh sampleRequest
          (fun _ => [IterResult.resp (some (textChunk "ok")), IterResult.done])).calls
        = [[Part.Text "describe", ImageData "jpeg" [1, 2, 3]]]
      ∧ (generateHandler (main_apiKey "") ResponseWriter.fresh sampleRequest
          (fun _ => [IterResult.resp (some (textChunk "ok")), IterResult.done])).w
        = ⟨some 200, "ok"⟩ := by
  decide

/-- C5, as the code has it: for a POST request with a key that passes the
guard, a well-formed URL query and a body that parses as a multipart form:
when the form has no `file` part the answer is status 400 with the line
`Error: unable to retrieve file`, whatever the prompt; when the first `file`
part opens and reads but `r.FormValue("prompt")` is empty (neither the URL
query nor the form has a `prompt` value, or the first one, query before
form, is the empty string) the answer is status 400 with the line
`Error: prompt cannot be empty`; in both cases nothing else is written and
the generation service is not called. -/
theorem generateHandler_missing_field (key : String) (r : Request)
    (svc : List Part → List IterResult) (v : List (String × String))
    (f : List (String × Upload))
    (hm : r.Method = "POST") (hk : key ≠ "TODO") (hq : r.queryErr = none)
    (hb : r.body = Body.multipart v f) :
    ((∀ kv ∈ f, kv.1 ≠ "file") →
        (generateHandler key ResponseWriter.fresh r svc).w.finalStatus = 400
          ∧ (generateHandler key ResponseWriter.fresh r svc).w.body
            = "Error: unable to retrieve file\n"
          ∧ (generateHandler key ResponseWriter.fresh r svc).calls = [])
      ∧ (∀ k u, f.find? (fun kv => kv.1 == "file") = some (k, u) →
        u.openErr = none → u.readErr = none →
        ((∀ kv ∈ r.Query ++ v, kv.1 ≠ "prompt")
          ∨ ∃ kp, (r.Query ++ v).find? (fun kv => kv.1 == "prompt") = some (kp, "")) →
        (generateHandler key ResponseWriter.fresh r svc).w.finalStatus = 400
          ∧ (generateHandler key ResponseWriter.fresh r svc).w.body
            = "Error: prompt cannot be empty\n"
          ∧ (generateHandler key ResponseWriter.fresh r svc).calls = []) := by
  have hm1 : r.Method = MethodPost := hm
  have hparse : ParseMultipartForm r (10 <<< 20)
      = Except.ok ⟨r.Query ++ v, storeFiles (10 <<< 20) f⟩ := by
    simp only [ParseMultipartForm, hb, hq]
  constructor
  · intro hno
    have hfind : f.find? (fun kv => kv.1 == "file") = none := by
      rw [List.find?_eq_none]
      intro kv hkv
      simpa using hno kv hkv
    have hfile : FormFile ⟨r.Query ++ v, storeFiles (10 <<< 20) f⟩ "file"
        = Except.error "http: no such file" := by
      simp only [FormFile, find_storeFiles_none _ _ _ hfind]
    have : generateHandler key ResponseWriter.fresh r svc
        = { World.init with
            parsed := true
            log := ["Error retrieving file: " ++ "http: no such file" ++ "\n"]
            w := ⟨some 400, "Error: unable to retrieve file\n"⟩ } := by
      unfold generateHandler
      simp only [hm1, ne_eq, not_true_eq_false, if_false, hk, hparse, hfile, httpError_fresh,
        StatusBadRequest]
      rfl
    rw [this]
    exact ⟨rfl, rfl, rfl⟩
  · intro k u hf ho hr hp
    obtain ⟨b, hfs⟩ := find_storeFiles_some (10 <<< 20) f "file" k u hf
    have hfile : FormFile ⟨r.Query ++ v, storeFiles (10 <<< 20) f⟩ "file"
        = Except.ok ⟨u, b⟩ := by
      simp only [FormFile, hfs, ho]
    have hread : ReadAll ⟨u, b⟩ = Except.ok u.bytes := by
      simp only [ReadAll, hr]
    have hval : FormValue ⟨r.Query ++ v, storeFiles (10 <<< 20) f⟩ "prompt" = "" := by
      rcases hp with hp | ⟨kp, hp⟩
      · have hfind : (r.Query ++ v).find? (fun kv => kv.1 == "prompt") = none := by
          rw [List.find?_eq_none]
          intro kv hkv
          simpa using hp kv hkv
        simp only [FormValue, hfind]
      · simp only [FormValue, hp]
    have : generateHandler key ResponseWriter.fresh r svc
        = { World.init with
            parsed := true
            w := ⟨some 400, "Error: prompt cannot be empty\n"⟩ } := by
      unfold generateHandler
      simp only [hm1, ne_eq, not_true_eq_false, if_false, hk, hparse, hfile, hread, hval,
        if_true, httpError_fresh, StatusBadRequest]
      rfl
    rw [this]
    exact ⟨rfl, rfl, rfl⟩

theorem generateHandler_missing_field_witness :
    (generateHandler "key" ResponseWriter.fresh noFileRequest
        (fun _ => [IterResult.done])).w.body = "Error: unable to retrieve file\n"
      ∧ (generateHandler "key" ResponseWriter.fresh noPromptRequest
        (fun _ => [IterResult.done])).w.finalStatus = 400
      ∧ (generateHandler "key" ResponseWriter.fresh emptyPromptRequest
        (fun _ => [IterResult.done])).w.finalStatus = 400
      ∧ (generateHandler "key" ResponseWriter.fresh emptyQueryPromptRequest
        (fun _ => [IterResult.done])).w.finalStatus = 400 :=
  ⟨((generateHandler_missing_field "key" noFileRequest (fun _ => [IterResult.done])
        [("prompt", "describe")] [] rfl (by decide) rfl rfl).1 (by simp)).2.1,
    ((generateHandler_missing_field "key" noPromptRequest (fun _ => [IterResult.done])
        [] [("file", sampleUpload)] rfl (by decide) rfl rfl).2 "file" sampleUpload rfl rfl rfl
        (Or.inl (by simp [noPromptRequest]))).1,
    ((generateHandler_missing_field "key" emptyPromptRequest (fun _ => [IterResult.done])
        [("prompt", "")] [("file", sampleUpload)] rfl (by decide) rfl rfl).2 "file" sampleUpload
        rfl rfl rfl (Or.inr ⟨"prompt", rfl⟩)).1,
    ((generateHandler_missing_field "key" emptyQueryPromptRequest (fun _ => [IterResult.done])
        [("prompt", "frombody")] [("file", sampleUpload)] rfl (by decide) rfl rfl).2 "file"
        sampleUpload rfl rfl rfl (Or.inr ⟨"prompt", rfl⟩)).1⟩

/-- C5 as stated fails: a POST request whose form has a readable file and no
`prompt` field, sent to a URL with `?prompt=fromquery`, is not answered with
400: `r.FormValue` finds the query parameter, the service is called and the
status is 200. -/
theorem generateHandler_query_prompt_accepted :
    queryPromptRequest.Method = "POST"
      ∧ queryPromptRequest.body = Body.multipart [] [("file", sampleUpload)]
      ∧ (generateHandler "key" ResponseWriter.fresh queryPromptRequest
          (fun _ => [IterResult.done])).w.finalStatus = 200
      ∧ (generateHandler "key" ResponseWriter.fresh queryPromptRequest
          (fun _ => [IterResult.done])).w.finalStatus ≠ 400
      ∧ (generateHandler "key" ResponseWriter.fresh queryPromptRequest
          (fun _ => [IterResult.done])).calls
        = [[Part.Text "fromquery", ImageData "jpeg" [1, 2, 3]]] := by
  decide

/-- C7, as the code has it: for a valid POST request the streaming
generation is called exactly once, with exactly two parts in this order: the
text `r.FormValue("prompt")`, unchanged, which is the first `prompt`
parameter of the URL query when the query has one and the first `prompt`
field of the form otherwise; and the image data made of format `jpeg` and
the complete bytes of the uploaded file, unchanged, whatever content type the
upload declares and whatever the stream then yields. -/
theorem generateHandler_calls_once (key : String) (r : Request)
    (svc : List Part → List IterResult) (prompt : String) (u : Upload)
    (hv : ValidPost key r prompt u) :
    (generateHandler key ResponseWriter.fresh r svc).calls
        = [[Part.Text prompt, ImageData "jpeg" u.bytes]]
      ∧ ImageData "jpeg" u.bytes = Part.Blob "image/jpeg" u.bytes
      ∧ (∀ kq q, r.Query.find? (fun kv => kv.1 == "prompt") = some (kq, q) → prompt = q)
      ∧ (∀ v f, r.body = Body.multipart v f → (∀ kv ∈ r.Query, kv.1 ≠ "prompt") →
          ∃ kp, v.find? (fun kv => kv.1 == "prompt") = some (kp, prompt)) := by
  have h : "image/" ++ "jpeg" = "image/jpeg" := by decide
  refine ⟨?_, by simp only [ImageData, h], ?_, ?_⟩
  · rw [generateHandler_valid key _ r svc prompt u hv]
    exact (streamLoop_calls _ _).1
  · intro kq q hq
    obtain ⟨_, _, _, v, f, k, kp, hb, _, _, _, hp, _⟩ := hv
    rw [List.find?_append, hq] at hp
    simp only [Option.or_some, Option.some.injEq, Prod.mk.injEq] at hp
    exact hp.2.symm
  · intro v f hb hno
    obtain ⟨_, _, _, v1, f1, k, kp, hb1, _, _, _, hp, _⟩ := hv
    rw [hb] at hb1
    simp only [Body.multipart.injEq] at hb1
    obtain ⟨rfl, rfl⟩ := hb1
    have hnone : r.Query.find? (fun kv => kv.1 == "prompt") = none := by
      rw [List.find?_eq_none]
      intro kv hkv
      simpa using hno kv hkv
    rw [List.find?_append, hnone] at hp
    exact ⟨kp, by simpa using hp⟩

theorem generateHandler_calls_once_witness :
    sampleUpload.contentType = "image/png"
      ∧ (generateHandler "key" ResponseWriter.fresh sampleRequest
          (fun _ => [IterResult.err "boom"])).calls
        = [[Part.Text "describe", Part.Blob "image/jpeg" [1, 2, 3]]]
      ∧ (generateHandler "key" ResponseWriter.fresh bothPromptRequest
          (fun _ => [IterResult.err "boom"])).calls
        = [[Part.Text "fromquery", Part.Blob "image/jpeg" [1, 2, 3]]] :=
  ⟨rfl,
    (generateHandler_calls_once "key" sampleRequest (fun _ => [IterResult.err "boom"])
      "describe" sampleUpload (sampleRequest_valid "key" (by decide))).1,
    (generateHandler_calls_once "key" bothPromptRequest (fun _ => [IterResult.err "boom"])
      "fromquery" sampleUpload
      ⟨rfl, by decide, rfl, _, _, _, _, rfl, rfl, rfl, rfl, rfl, by decide⟩).1⟩

/-- C7 as stated fails: with `?prompt=fromquery` in the URL and the field
`prompt=frombody` in the form, the text sent to the service is `fromquery`,
not the form's `prompt` value. -/
theorem generateHandler_prompt_from_query :
    bothPromptRequest.body
        = Body.multipart [("prompt", "frombody")] [("file", sampleUpload)]
      ∧ (generateHandler "key" ResponseWriter.fresh bothPromptRequest
          (fun _ => [IterResult.done])).calls
        = [[Part.Text "fromquery", ImageData "jpeg" [1, 2, 3]]]
      ∧ (generateHandler "key" ResponseWriter.fresh bothPromptRequest
          (fun _ => [IterResult.done])).calls
        ≠ [[Part.Text "frombody", ImageData "jpeg" [1, 2, 3]]] := by
  decide

theorem bigUpload_length : bigUpload.bytes.length = 10 <<< 20 + 1 := by
  simp only [bigUpload, List.length_replicate]

theorem bigRequest_valid : ValidPost "key" bigRequest "describe" bigUpload :=
  ⟨rfl, by decide, rfl, _, _, _, _, rfl, rfl, rfl, rfl, rfl, by decide⟩

/-- C6, the code at the failing input: an upload of 10 MB plus one byte
passes `ParseMultipartForm(10 << 20)` (the file is stored on disk), and the
handler calls the service with all its bytes and answers 200. -/
theorem generateHandler_big_upload_forwarded :
    10 <<< 20 < bigUpload.bytes.length
      ∧ ParseMultipartForm bigRequest (10 <<< 20)
        = Except.ok ⟨[("prompt", "describe")], [("file", ⟨bigUpload, true⟩)]⟩
      ∧ (generateHandler "key" ResponseWriter.fresh bigRequest
          (fun _ => [IterResult.resp (some (textChunk "ok")), IterResult.done])).calls
        = [[Part.Text "describe", ImageData "jpeg" bigUpload.bytes]]
      ∧ (generateHandler "key" ResponseWriter.fresh bigRequest
          (fun _ => [IterResult.resp (some (textChunk "ok")), IterResult.done])).w
        = ⟨some 200, "ok"⟩ := by
  have hlen := bigUpload_length
  refine ⟨by rw [hlen]; exact Nat.lt_succ_self _, ?_, ?_, ?_⟩
  · have hgt : bigUpload.bytes.length > 10 <<< 20 := by rw [hlen]; exact Nat.lt_succ_self _
    simp only [ParseMultipartForm, bigRequest, storeFiles, hgt, if_true, List.nil_append]
  · rw [generateHandler_valid "key" _ bigRequest _ "describe" bigUpload bigRequest_valid]
    exact (streamLoop_calls _ _).1
  · rw [generateHandler_valid "key" _ bigRequest _ "describe" bigUpload bigRequest_valid]
    decide

theorem takeWhile_append_stop (p : Char → Bool) (l rest : List Char) (y : Char)
    (hl : ∀ x ∈ l, p x = true) (hy : p y = false) :
    (l ++ y :: rest).takeWhile p = l := by
  induction l with
  | nil => simp [List.takeWhile, hy]
  | cons a t ih =>
    have ha := hl a (by simp)
    simp [List.takeWhile, ha, ih (fun x hx => hl x (by simp [hx]))]

theorem Base_join (dir name : String) (hne : name ≠ "") (hs : '/' ∉ name.data) :
    Base (dir ++ "/" ++ name) = name := by
  obtain ⟨n⟩ := name
  obtain ⟨d⟩ := dir
  have hn : n ≠ [] := by
    intro h; apply hne; rw [h]
  have hdata : (String.mk d ++ "/" ++ String.mk n).data = d ++ '/' :: n := by
    simp [String.data_append]
  have hpath : String.mk d ++ "/" ++ String.mk n ≠ "" := by
    intro h
    have := congrArg String.data h
    rw [hdata] at this
    simp at this
  unfold Base
  simp only [hpath, if_false, hdata]
  obtain ⟨a, t, hrev⟩ : ∃ a t, n.reverse = a :: t := by
    cases hr : n.reverse with
    | nil => exact absurd (List.reverse_eq_nil_iff.mp hr) hn
    | cons a t => exact ⟨a, t, rfl⟩
  have ha : a ≠ '/' := by
    intro h
    apply hs
    have : a ∈ n.reverse := by rw [hrev]; simp
    simpa [h] using List.mem_reverse.mp this
  have hdrop : ((d ++ '/' :: n).reverse.dropWhile (fun c => decide (c = '/')))
      = (d ++ '/' :: n).reverse := by
    have : (d ++ '/' :: n).reverse = a :: (t ++ '/' :: d.reverse) := by
      simp [List.reverse_append, hrev]
    rw [this]
    simp [List.dropWhile, ha]
  have htake : ((d ++ '/' :: n).reverse.takeWhile (fun c => decide (c ≠ '/'))) = n.reverse := by
    have : (d ++ '/' :: n).reverse = n.reverse ++ '/' :: d.reverse := by
      simp [List.reverse_append]
    rw [this]
    apply takeWhile_append_stop
    · intro x hx
      have : x ∈ n := List.mem_reverse.mp hx
      simp only [ne_eq, decide_eq_true_eq]
      intro h
      exact hs (h ▸ this)
    · simp
  simp only [hdrop, List.reverse_reverse, htake, hn, if_false]

/-- C8: on path `/`, whatever the scan gives (N matches, none, or an error),
`indexHandler` executes the template once on a page whose `Images` has
exactly one entry per match, the i-th being `filepath.Base` of the i-th
match, in the scan's order (for matches `dir/name` this is `name`); with no
match or a scan error the list is empty; the body is what the template
writes and the status is 200. -/
theorem indexHandler_root (tmpl : Page → String × Option String)
    (glob : Except String (List String)) (r : Request) (h : r.Path = "/") :
    (indexHandler tmpl glob ResponseWriter.fresh r).executed = [⟨(matchesOf glob).map Base⟩]
      ∧ ((matchesOf glob).map Base).length = (matchesOf glob).length
      ∧ (∀ i : Nat, ((matchesOf glob).map Base)[i]? = ((matchesOf glob)[i]?).map Base)
      ∧ (∀ dir names, (∀ name ∈ names, name ≠ "" ∧ '/' ∉ name.data) →
          glob = Except.ok (names.map (fun name => dir ++ "/" ++ name)) →
          (indexHandler tmpl glob ResponseWriter.fresh r).executed = [⟨names⟩])
      ∧ (glob = Except.ok [] ∨ (∃ e, glob = Except.error e) →
          (indexHandler tmpl glob ResponseWriter.fresh r).executed = [⟨[]⟩])
      ∧ (indexHandler tmpl glob ResponseWriter.fresh r).w.body
          = (tmpl ⟨(matchesOf glob).map Base⟩).1
      ∧ (indexHandler tmpl glob ResponseWriter.fresh r).w.finalStatus = 200 := by
  have hex : (indexHandler tmpl glob ResponseWriter.fresh r).executed
      = [⟨(matchesOf glob).map Base⟩] := by
    simp only [indexHandler, h, if_true]
  refine ⟨hex, by simp, by simp, ?_, ?_, ?_, ?_⟩
  · intro dir names hnames hglob
    rw [hex, hglob]
    simp only [matchesOf, List.map_map]
    congr 2
    conv_rhs => rw [← List.map_id names]
    apply List.map_congr_left
    intro name hname
    exact Base_join dir name (hnames name hname).1 (hnames name hname).2
  · intro hcase
    rw [hex]
    rcases hcase with hg | ⟨e, hg⟩ <;> rw [hg] <;> rfl
  · simp only [indexHandler, h, if_true, Write_body]
    simp [ResponseWriter.fresh]
  · simp only [indexHandler, h, if_true, ResponseWriter.finalStatus, Write_status]
    rfl

theorem indexHandler_root_witness :
    (indexHandler sampleTemplate
        (Except.ok ["static/images/baked_goods_1.jpeg", "static/images/baked_goods_2.jpeg"])
        ResponseWriter.fresh ⟨"GET", "/", [], none, Body.invalid ""⟩).executed
      = [⟨["baked_goods_1.jpeg", "baked_goods_2.jpeg"]⟩] :=
  (indexHandler_root sampleTemplate
    (Except.ok ["static/images/baked_goods_1.jpeg", "static/images/baked_goods_2.jpeg"])
    ⟨"GET", "/", [], none, Body.invalid ""⟩ rfl).1.trans (by decide)

/-- C9, as the code has it: on a path other than `/` that reaches
`indexHandler`, the template is not executed and nothing is written: the
body is empty and the status is the implicit 200. -/
theorem indexHandler_other_path (tmpl : Page → String × Option String)
    (glob : Except String (List String)) (r : Request) (h : r.Path ≠ "/") :
    (indexHandler tmpl glob ResponseWriter.fresh r).executed = []
      ∧ (indexHandler tmpl glob ResponseWriter.fresh r).w = ResponseWriter.fresh
      ∧ (indexHandler tmpl glob ResponseWriter.fresh r).w.body = ""
      ∧ (indexHandler tmpl glob ResponseWriter.fresh r).w.finalStatus = 200 := by
  have hw : indexHandler tmpl glob ResponseWriter.fresh r
      = { World.init with
          log := (match glob with
            | Except.ok _ => []
            | Except.error err => ["Error loading baked goods images: " ++ err]) } := by
    simp only [indexHandler, h, if_false]
    rfl
  rw [hw]
  exact ⟨rfl, rfl, rfl, rfl⟩

theorem indexHandler_other_path_witness :
    (indexHandler sampleTemplate (Except.ok ["static/images/baked_goods_1.jpeg"])
        ResponseWriter.fresh ⟨"GET", "/foo", [], none, Body.invalid ""⟩).w.body = "" :=
  (indexHandler_other_path sampleTemplate (Except.ok ["static/images/baked_goods_1.jpeg"])
    ⟨"GET", "/foo", [], none, Body.invalid ""⟩ (by decide)).2.2.1

/-- C9 as stated fails: on `/foo` the template is not executed and the body
is empty, while on `/` the same scan gives a page and a body. -/
theorem indexHandler_foo_not_rendered :
    (indexHandler sampleTemplate (Except.ok ["static/images/baked_goods_1.jpeg"])
        ResponseWriter.fresh ⟨"GET", "/foo", [], none, Body.invalid ""⟩).executed = []
      ∧ (indexHandler sampleTemplate (Except.ok ["static/images/baked_goods_1.jpeg"])
        ResponseWriter.fresh ⟨"GET", "/", [], none, Body.invalid ""⟩).executed
          = [⟨["baked_goods_1.jpeg"]⟩]
      ∧ (indexHandler sampleTemplate (Except.ok ["static/images/baked_goods_1.jpeg"])
        ResponseWriter.fresh ⟨"GET", "/foo", [], none, Body.invalid ""⟩).w.body
          ≠ (indexHandler sampleTemplate (Except.ok ["static/images/baked_goods_1.jpeg"])
            ResponseWriter.fresh ⟨"GET", "/", [], none, Body.invalid ""⟩).w.body := by
  decide

/-- C10: the forwarding loop skips absent layers.  Inserting, anywhere in
the stream, a nil response or a response that carries nothing (no candidate,
or only candidates without content or with a content without parts), or
inserting such a candidate anywhere among the candidates of a chunk, leaves
everything the handler does unchanged: body, status, log and calls; the
chunks that follow are handled as before. -/
theorem generateHandler_skips_absent (key : String) (w : ResponseWriter) (r : Request)
    (pre post : List Part → List IterResult) :
    (∀ x : IterResult, x.absent →
        generateHandler key w r (fun args => pre args ++ x :: post args)
          = generateHandler key w r (fun args => pre args ++ post args))
      ∧ (∀ (a b : List Candidate) (cand : Candidate), cand.absent →
        generateHandler key w r
            (fun args => pre args ++ IterResult.resp (some ⟨a ++ cand :: b⟩) :: post args)
          = generateHandler key w r
            (fun args => pre args ++ IterResult.resp (some ⟨a ++ b⟩) :: post args)) := by
  constructor
  · intro x hx
    apply generateHandler_congr
    intro st args
    exact streamLoop_insert_absent st _ _ x hx
  · intro a b cand hc
    apply generateHandler_congr
    intro st args
    exact streamLoop_insert_candidate st _ _ a b cand hc

theorem generateHandler_skips_absent_witness :
    (generateHandler "key" ResponseWriter.fresh sampleRequest
        (fun _ => [IterResult.resp (some (textChunk "a"))]
          ++ IterResult.resp none :: [IterResult.resp (some (textChunk "b")), IterResult.done])).w
      = ⟨some 200, "ab"⟩
    ∧ (generateHandler "key" ResponseWriter.fresh sampleRequest
        (fun _ => [IterResult.resp (some (textChunk "a"))]
          ++ IterResult.resp (some ⟨[] ++ ⟨some ⟨[]⟩⟩ :: [⟨some ⟨[Part.Text "b"]⟩⟩]⟩)
            :: [IterResult.done])).w
      = ⟨some 200, "ab"⟩ :=
  ⟨(congrArg World.w ((generateHandler_skips_absent "key" ResponseWriter.fresh sampleRequest
      (fun _ => [IterResult.resp (some (textChunk "a"))])
      (fun _ => [IterResult.resp (some (textChunk "b")), IterResult.done])).1
      (IterResult.resp none) (by decide))).trans (by decide),
   (congrArg World.w ((generateHandler_skips_absent "key" ResponseWriter.fresh sampleRequest
      (fun _ => [IterResult.resp (some (textChunk "a"))])
      (fun _ => [IterResult.done])).2
      [] [⟨some ⟨[Part.Text "b"]⟩⟩] ⟨some ⟨[]⟩⟩ (by decide))).trans (by decide)⟩

end VitaCam
